import Mathlib

/-!
Verification of the `uring` package (io_uring-backed UDP and file I/O).

The Go code is embedded shallowly: every exported operation becomes a pure
Lean function from an explicit connection state (plus the values the kernel
hands back through the C shim, supplied as oracle arguments) to a result and
a new state.  The C ring primitives (`initialize`, `submit_*_request`,
`wait_completion`, `peek_completion`, `io_uring_queue_exit`) are not part of
the Go source; their interface behaviour is modelled from the spec, §4.1:
a submission enqueues one operation carrying its slot index as user data,
`wait_completion` consumes exactly one completion and returns its packed
64-bit value, `peek_completion` either does the same or reports would-block
(EAGAIN/EINTR), and queue exit tears the ring down.
-/

/-- Big-endian value of a byte sequence (most significant byte first). -/
def beVal (bs : List Nat) : Nat :=
  bs.foldl (fun a b => a * 256 + b) 0

/-- The four bytes of `v` as a 32-bit big-endian sequence; this is
`binary.BigEndian.PutUint32` (and, composed with `beVal`, the model of the
`htonl`/`ntohl` pair: socket-address words are stored as their network-order
byte sequence). -/
def beBytes4 (v : Nat) : List Nat :=
  [v / 2 ^ 24 % 256, v / 2 ^ 16 % 256, v / 2 ^ 8 % 256, v % 256]

/-- Interpretation of a `uint64` bit pattern as Go's `int64` (two's
complement). -/
def toSigned64 (v : Nat) : Int :=
  if v < 2 ^ 63 then (v : Int) else (v : Int) - 2 ^ 64

/-- Go's built-in `copy(dst, src)`: copies `min (length dst) (length src)`
bytes of `src` over the front of `dst`, leaving the rest of `dst` intact. -/
def goCopy (dst src : List Nat) : List Nat :=
  src.take (min dst.length src.length) ++ dst.drop (min dst.length src.length)

/-- Result of `unpackNIdx`: either the decoded error (the completion value
read as a negative `int64`), or a byte count `n` and a slot index `idx`. -/
inductive UnpackResult where
  | err (code : Int)
  | ok (n idx : Nat)
  deriving DecidableEq, Repr

/-- Model of `unpackNIdx` (part_005 lines 369-374).  The argument is the
`C.uint64_t` completion value; `% 2 ^ 64` normalises it to the 64-bit range.
`int64(nidx) < 0` becomes a sign test, `int(uint32(nidx >> 32))` the high
word, `int(uint32(nidx))` the low word. -/
def unpackNIdx (nidx : Nat) : UnpackResult :=
  let v := nidx % 2 ^ 64
  if toSigned64 v < 0 then .err (toSigned64 v)
  else .ok (v / 2 ^ 32 % 2 ^ 32) (v % 2 ^ 32)

/-- Modelled from the spec, §4.1: a ring records the user data (slot
indices) of the submitted operations whose completions have not yet been
consumed, and the full submission history. -/
structure GoUring where
  inflight : Multiset Nat
  submitLog : List Nat
  deriving DecidableEq

/-- Modelled from the spec, §4.1: enqueue one operation with user data
`idx`. -/
def submitOp (r : GoUring) (idx : Nat) : GoUring :=
  { inflight := idx ::ₘ r.inflight, submitLog := r.submitLog ++ [idx] }

/-- Modelled from the spec, §4.1: consuming a completion removes the
completed operation (the one with user data `cidx`, chosen by the kernel)
from the in-flight collection. -/
def completeOp (r : GoUring) (cidx : Nat) : GoUring :=
  { r with inflight := r.inflight.erase cidx }

/-- Scratch `sockaddr_in` of a request slot: `s_addr` as its four
network-order bytes, `sin_port` as the 16-bit port value. -/
structure SockAddr4 where
  sinAddr : List Nat
  sinPort : Nat
  deriving DecidableEq, Repr

/-- Scratch `sockaddr_in6` of a request slot: the 16 bytes of `sin6_addr`
and the 16-bit port value. -/
structure SockAddr6 where
  sin6Addr : List Nat
  sin6Port : Nat
  deriving DecidableEq, Repr

/-- A request slot (`C.goreq`): fixed buffer plus scratch socket-address
storage for both families. -/
structure Goreq where
  buf : List Nat
  sa : SockAddr4
  sa6 : SockAddr6
  deriving DecidableEq, Repr

/-- Value of `device.MaxSegmentSize`, the slot buffer size. -/
def bufferSize : Nat := 2048

/-- A fresh slot as allocated by `C.initializeReq`: zeroed buffer and
zeroed scratch addresses. -/
def freshReq : Goreq :=
  { buf := List.replicate bufferSize 0,
    sa := { sinAddr := [0, 0, 0, 0], sinPort := 0 },
    sa6 := { sin6Addr := List.replicate 16 0, sin6Port := 0 } }

/-- An IP address as `netaddr` builds it: `IPFrom4` or `IPFrom16`. -/
inductive IPAddr where
  | v4 (bytes : List Nat)
  | v6 (bytes : List Nat)
  deriving DecidableEq, Repr

/-- A `netaddr.IPPort`. -/
structure IPPort where
  ip : IPAddr
  port : Nat
  deriving DecidableEq, Repr

/-- Decoding of a slot's scratch socket address by address family
(part_005 lines 158-170): IPv4 reads `ntohl(sin_addr.s_addr)` back into
four big-endian bytes and `ntohs(sin_port)`; IPv6 copies the 16 bytes of
`sin6_addr` and reads `ntohs(sin6_port)`.  The `% 65536` is the `uint16`
conversion applied to the port. -/
def decodeSrcAddr (is4 : Bool) (r : Goreq) : IPPort :=
  if is4 then
    { ip := .v4 (beBytes4 (beVal r.sa.sinAddr % 2 ^ 32)), port := r.sa.sinPort % 65536 }
  else
    { ip := .v6 r.sa6.sin6Addr, port := r.sa6.sin6Port % 65536 }

/-- The state of a `UDPConn` (part_005 lines 40-52).  Pointer-valued fields
become `Option`/`Bool` liveness flags; the two request arrays become lists
of length 8; `sendReqC` is the buffered channel's queue of free slot
indices; `closeDone` is the `sync.Once` guard. -/
structure UDPConn where
  recvRing : Option GoUring
  sendRing : Option GoUring
  closeDone : Bool
  connOpen : Bool
  fileOpen : Bool
  fd : Int
  recvReqs : List Goreq
  sendReqs : List Goreq
  sendReqC : List Nat
  reqsFreed : Bool
  is4 : Bool
  deriving DecidableEq

/-- Outcome of `ReadFromNetaddr`: a normal return (count, source address,
and the caller's buffer after the copy), an error return (buffer
untouched), or a runtime panic. -/
inductive ReadResult where
  | ok (n : Nat) (ipp : IPPort) (buf : List Nat)
  | err (msg : String)
  | panicked (msg : String)
  deriving DecidableEq, Repr

/-- Model of `UDPConn.ReadFromNetaddr` (part_005 lines 147-180).  `cidx` is
the slot index of the completion the kernel delivers (spec §4.1: completions
carry the submitting slot's user data), `nidx` the packed value
`wait_completion` returns, and `se` the errno result of the resubmission.
A dereference of a nil ring and an out-of-range slot index are modelled as
panics, as is the `panic("how should we handle this?")` on a failed
resubmission. -/
def UDPConn.ReadFromNetaddr (u : UDPConn) (buf : List Nat) (cidx nidx : Nat)
    (se : Int) : ReadResult × UDPConn :=
  if u.fd = 0 then (.err "invalid uring.UDPConn", u)
  else
    match u.recvRing with
    | none => (.panicked "nil uring", u)
    | some ring =>
      let ring1 := completeOp ring cidx
      match unpackNIdx nidx with
      | .err code =>
          (.err ("ReadFromNetaddr: error " ++ toString code),
           { u with recvRing := some ring1 })
      | .ok n idx =>
        match u.recvReqs.get? idx with
        | none => (.panicked "runtime error: index out of range", { u with recvRing := some ring1 })
        | some r =>
          let ipp := decodeSrcAddr u.is4 r
          let buf2 := goCopy buf (r.buf.take n)
          if se < 0 then
            (.panicked "how should we handle this?", { u with recvRing := some ring1 })
          else
            (.ok n ipp buf2, { u with recvRing := some (submitOp ring1 idx) })

/-- A `net.Addr` as `WriteTo` sees it: either a `*net.UDPAddr` (its `IP`
byte slice and `Port`), or a value of any other dynamic type, for which the
type assertion in `WriteTo` fails. -/
inductive NetAddr where
  | udp (ip : List Nat) (port : Int)
  | other (typeName : String)
  deriving DecidableEq, Repr

/-- Modelled from the spec, §4.1: the kernel-supplied inputs of one
`WriteTo`/`Write` call.  `wcidx`/`wnidx` are the consumed completion's slot
index and the packed value returned by `wait_completion` (used only when the
free-list channel is empty); `pcidx`/`pnidx` are the same for the
post-submission `peek_completion`. -/
structure SendOracle where
  wcidx : Nat
  wnidx : Nat
  pcidx : Nat
  pnidx : Nat
  deriving DecidableEq, Repr

/-- Slot acquisition for the write path (part_005 lines 241-252): a
non-blocking take from the free-list channel; if the channel is empty, wait
for a send completion and decode a slot index from it, propagating a decoded
error. -/
def sendSlotAcquire (c : List Nat) (ring : GoUring) (o : SendOracle) :
    Except Int (Nat × List Nat) × GoUring :=
  match c with
  | idx :: rest => (.ok (idx, rest), ring)
  | [] =>
    let ring1 := completeOp ring o.wcidx
    match unpackNIdx o.wnidx with
    | .err code => (.error code, ring1)
    | .ok _ idx => (.ok (idx, []), ring1)

/-- Outcome of `WriteTo`/`Write`: a normal `(n, nil)` return, an error
return, or a runtime panic. -/
inductive WriteResult where
  | ok (n : Nat)
  | err (msg : String)
  | panicked (msg : String)
  deriving DecidableEq, Repr

/-- Would-block test of the peek path (part_005 line 277):
`syscall.Errno(-nidx) == syscall.EAGAIN || syscall.Errno(-nidx) == syscall.EINTR`,
where the negation is on `uint64` and `EAGAIN = 11`, `EINTR = 4`. -/
def peekWouldBlock (pnidx : Nat) : Bool :=
  (2 ^ 64 - pnidx % 2 ^ 64) % 2 ^ 64 = 11 ∨ (2 ^ 64 - pnidx % 2 ^ 64) % 2 ^ 64 = 4

/-- Tail of the write path shared by both address families (part_005 lines
269-287): submit the send, then make one opportunistic, non-blocking
completion peek; a decoded index goes back on the free-list channel and any
decode error is ignored.  The return value is `(len(p), nil)`
unconditionally. -/
def finishSend (u : UDPConn) (p : List Nat) (idx : Nat) (rest : List Nat)
    (r' : Goreq) (ring1 : GoUring) (o : SendOracle) : WriteResult × UDPConn :=
  let ring2 := submitOp ring1 idx
  let base := { u with sendReqs := u.sendReqs.set idx r', sendReqC := rest }
  if peekWouldBlock o.pnidx then
    (.ok p.length, { base with sendRing := some ring2 })
  else
    let ring3 := completeOp ring2 o.pcidx
    match unpackNIdx o.pnidx with
    | .err _ => (.ok p.length, { base with sendRing := some ring3 })
    | .ok _ idx2 =>
        (.ok p.length,
         { base with sendRing := some ring3, sendReqC := rest ++ [idx2] })

/-- Destination encoding of the write path (part_005 lines 258-268),
selected by the connection's address family.  IPv4: `s_addr` receives
`htonl(binary.BigEndian.Uint32(IP))`, which reads exactly the first four
bytes of the `IP` slice and panics (`none`) when the slice is shorter;
IPv6: the 16 bytes at `&IP[0]` are copied into `sin6_addr`, which panics
(`none`) when the slice is empty.  The 16-byte copy reads past a short
slice; the bytes beyond `len(IP)` are unspecified memory, pinned to 0 in
the model.  Both branches store `htons(uint16(Port))`. -/
def encodeDest (is4 : Bool) (r : Goreq) (ip : List Nat) (port : Int) : Option Goreq :=
  if is4 then
    if 4 ≤ ip.length then
      some { r with
        sa := { sinAddr := beBytes4 (beVal (ip.take 4) % 2 ^ 32)
                sinPort := (port % 65536).toNat } }
    else none
  else
    if ip.length = 0 then none
    else
      some { r with
        sa6 := { sin6Addr := (ip ++ List.replicate 16 0).take 16
                 sin6Port := (port % 65536).toNat } }

/-- Model of `UDPConn.WriteTo` (part_005 lines 232-288).  The closed-fd
check and the `*net.UDPAddr` type assertion come first; then slot
acquisition, the copy of `p` into the slot buffer, the address-family
encode (whose out-of-range accesses are modelled as panics:
`binary.BigEndian.Uint32` on fewer than 4 bytes, `&udpAddr.IP[0]` on an
empty slice), submission, and the opportunistic peek.  The 16-byte copy
through `*(*[16]byte)(&udpAddr.IP[0])` reads past a short slice; the bytes
beyond `len(IP)` are unspecified memory, pinned to 0 in the model. -/
def UDPConn.WriteTo (u : UDPConn) (p : List Nat) (addr : NetAddr)
    (o : SendOracle) : WriteResult × UDPConn :=
  if u.fd = 0 then (.err "invalid uring.UDPConn", u)
  else
    match addr with
    | .other t => (.err ("cannot WriteTo net.Addr of type " ++ t), u)
    | .udp ip port =>
      match u.sendRing with
      | none => (.panicked "nil uring", u)
      | some ring =>
        match sendSlotAcquire u.sendReqC ring o with
        | (.error code, ring1) =>
            (.err ("some WriteTo failed, maybe long ago: error " ++ toString code),
             { u with sendRing := some ring1, sendReqC := [] })
        | (.ok (idx, rest), ring1) =>
          match u.sendReqs.get? idx with
          | none =>
              (.panicked "runtime error: index out of range",
               { u with sendRing := some ring1, sendReqC := rest })
          | some r =>
            let newBuf := goCopy (r.buf.take p.length) p ++ r.buf.drop p.length
            match encodeDest u.is4 { r with buf := newBuf } ip port with
            | none =>
                (.panicked "runtime error: index out of range",
                 { u with
                   sendRing := some ring1
                   sendReqC := rest
                   sendReqs := u.sendReqs.set idx { r with buf := newBuf } })
            | some r' => finishSend u p idx rest r' ring1 o

/-- Teardown body of `UDPConn.Close` (part_005 lines 184-208): close and nil
the inner connection, exit and nil both rings, close and nil the file, zero
the fd, free every request slot. -/
def udpTeardown (u : UDPConn) : UDPConn :=
  { u with
    closeDone := true
    connOpen := false
    recvRing := none
    sendRing := none
    fileOpen := false
    fd := 0
    reqsFreed := true }

/-- Model of `UDPConn.Close` (part_005 lines 182-211): the whole body runs
under `u.close.Do`, so it executes only on the first call; the return value
is always nil. -/
def UDPConn.Close (u : UDPConn) : Option String × UDPConn :=
  if u.closeDone then (none, u) else (none, udpTeardown u)

/-- Outcome of a deadline setter: a returned error value or a panic. -/
inductive DeadlineResult where
  | returned (err : Option String)
  | panicked (msg : String)
  deriving DecidableEq, Repr

/-- Opaque stand-in for `time.Time`. -/
structure GoTime where
  nanos : Int
  deriving DecidableEq, Repr

/-- Model of `UDPConn.SetDeadline` (part_005 lines 293-295):
`panic("not implemented")`. -/
def UDPConn.SetDeadline (_ : UDPConn) (_ : GoTime) : DeadlineResult :=
  .panicked "not implemented"

/-- Model of `UDPConn.SetReadDeadline` (part_005 lines 297-299). -/
def UDPConn.SetReadDeadline (_ : UDPConn) (_ : GoTime) : DeadlineResult :=
  .panicked "not implemented"

/-- Model of `UDPConn.SetWriteDeadline` (part_005 lines 301-303). -/
def UDPConn.SetWriteDeadline (_ : UDPConn) (_ : GoTime) : DeadlineResult :=
  .panicked "not implemented"

/-- The state of a `File` (part_005 lines 310-319): write and read rings,
a one-read-slot pool and an eight-write-slot pool, the free-list channel
for write slots, and the `sync.Once` close guard. -/
structure GoFile where
  writeRing : Option GoUring
  readRing : Option GoUring
  closeDone : Bool
  fileOpen : Bool
  fd : Int
  readReqs : List Goreq
  writeReqs : List Goreq
  writeReqC : List Nat
  reqsFreed : Bool
  deriving DecidableEq

/-- Outcome of `File.Read`: a normal return (count and the caller's buffer
after the copy), an error return, or a runtime panic. -/
inductive FileReadResult where
  | ok (n : Nat) (buf : List Nat)
  | err (msg : String)
  | panicked (msg : String)
  deriving DecidableEq, Repr

/-- Model of `File.Read` (part_005 lines 383-401).  Oracle arguments as in
`UDPConn.ReadFromNetaddr`.  A decoded error or a byte count below 4 is an
error return that does not resubmit; otherwise the data is copied out and
the single read slot is resubmitted. -/
def GoFile.Read (f : GoFile) (buf : List Nat) (cidx nidx : Nat)
    (se : Int) : FileReadResult × GoFile :=
  if f.fd = 0 then (.err "invalid uring.File", f)
  else
    match f.readRing with
    | none => (.panicked "nil uring", f)
    | some ring =>
      let ring1 := completeOp ring cidx
      match unpackNIdx nidx with
      | .err code =>
          (.err ("Read: error " ++ toString code), { f with readRing := some ring1 })
      | .ok n idx =>
        if n < 4 then
          (.err "Read: <nil>", { f with readRing := some ring1 })
        else
          match f.readReqs.get? idx with
          | none =>
              (.panicked "runtime error: index out of range",
               { f with readRing := some ring1 })
          | some r =>
            let buf2 := goCopy buf (r.buf.take n)
            if se < 0 then
              (.panicked "how should we handle this?", { f with readRing := some ring1 })
            else
              (.ok n buf2, { f with readRing := some (submitOp ring1 idx) })

/-- Teardown body of `File.Close` (part_005 lines 443-458): close the file,
exit and nil both rings, zero the fd, free every request slot. -/
def fileTeardown (f : GoFile) : GoFile :=
  { f with
    closeDone := true
    fileOpen := false
    readRing := none
    writeRing := none
    fd := 0
    reqsFreed := true }

/-- Model of `File.Close` (part_005 lines 441-461): the body runs under
`u.close.Do`, so it executes only on the first call; the return value is
always nil. -/
def GoFile.Close (f : GoFile) : Option String × GoFile :=
  if f.closeDone then (none, f) else (none, fileTeardown f)

/-- Modelled from the spec, §4.1: the fallible steps of construction, as
oracle inputs.  `parseErr` covers the local-address parsing failures,
`fileErr` the `conn.File()` call, `ret1`/`ret2` the two `C.initialize`
results (first = recv/write ring, second = send/read ring), and
`submitErr i` the errno of the initial submission for slot `i`. -/
structure InitOracle where
  parseErr : Bool
  fileErr : Bool
  ret1 : Int
  ret2 : Int
  submitErr : Nat → Int

/-- Model of `NewUDPConn` (part_005 lines 54-125), paired with the number of
initialized-and-not-exited rings at the moment it returns (`C.initialize`
success adds one, `C.io_uring_queue_exit` removes one).  On a send-ring
initialization failure the recv ring is exited before the error returns; on
an initial recv-submission failure `u.Close()` exits both rings. -/
def NewUDPConn (useIOURing : Bool) (localIs4 : Bool) (fd : Int)
    (o : InitOracle) : Except String UDPConn × Nat :=
  if !useIOURing then (.error "io_uring disabled", 0)
  else if o.parseErr then (.error "failed to parse UDPConn local addr", 0)
  else if o.fileErr then (.error "conn.File failed", 0)
  else if o.ret1 < 0 then (.error "uring initialization failed", 0)
  else if o.ret2 < 0 then
    -- free recvRing if sendRing initialize failed
    (.error "uring initialization failed", 1 - 1)
  else
    -- both rings live; allocate all 16 slots, then submit the 8 recv slots
    match (List.range 8).find? (fun i => o.submitErr i < 0) with
    | some _ =>
        -- submitRecvRequest failed: u.Close() exits both rings
        (.error "uring.submitRecvRequest failed", 2 - 2)
    | none =>
        (.ok { recvRing := some { inflight := Multiset.range 8, submitLog := List.range 8 }
               sendRing := some { inflight := 0, submitLog := [] }
               closeDone := false
               connOpen := true
               fileOpen := true
               fd := fd
               recvReqs := List.replicate 8 freshReq
               sendReqs := List.replicate 8 freshReq
               sendReqC := List.range 8
               reqsFreed := false
               is4 := localIs4 },
         2)

/-- Model of `NewFile` (part_005 lines 321-358), paired with the live-ring
count as in `NewUDPConn`.  The ring loop initializes the write ring first,
then the read ring; on a failure it returns the error at once — the code's
own comment reads `TODO: handle unwinding partial initialization` — so a
read-ring failure leaves the write ring initialized and not exited.  On a
failed initial readv submission `u.Close()` exits both rings. -/
def NewFile (fd : Int) (o : InitOracle) : Except String GoFile × Nat :=
  if o.ret1 < 0 then (.error "uring initialization failed", 0)
  else if o.ret2 < 0 then (.error "uring initialization failed", 1)
  else
    match (List.range 1).find? (fun i => o.submitErr i < 0) with
    | some _ => (.error "uring.submitReadvRequest failed", 2 - 2)
    | none =>
        (.ok { writeRing := some { inflight := 0, submitLog := [] }
               readRing := some { inflight := Multiset.range 1, submitLog := List.range 1 }
               closeDone := false
               fileOpen := true
               fd := fd
               readReqs := List.replicate 1 freshReq
               writeReqs := List.replicate 8 freshReq
               writeReqC := List.range 8
               reqsFreed := false },
         2)

/-- A small request slot used in concrete runs (an 8-byte buffer keeps the
evaluations light; nothing in the operations depends on the buffer being
exactly `bufferSize` long). -/
def smallReq : Goreq :=
  { buf := [0, 0, 0, 0, 0, 0, 0, 0],
    sa := { sinAddr := [0, 0, 0, 0], sinPort := 0 },
    sa6 := { sin6Addr := List.replicate 16 0, sin6Port := 0 } }

/-- A freshly constructed IPv4-family connection state with small slot
buffers: all eight recv slots in flight, all eight send slots free. -/
def sampleConn4 : UDPConn :=
  { recvRing := some { inflight := Multiset.range 8, submitLog := List.range 8 }
    sendRing := some { inflight := 0, submitLog := [] }
    closeDone := false
    connOpen := true
    fileOpen := true
    fd := 3
    recvReqs := List.replicate 8 smallReq
    sendReqs := List.replicate 8 smallReq
    sendReqC := List.range 8
    reqsFreed := false
    is4 := true }

/-- The same state with IPv6 address family. -/
def sampleConn6 : UDPConn :=
  { sampleConn4 with is4 := false }

/-- An oracle whose peek reports would-block (EAGAIN) and whose wait path
is unused. -/
def quietOracle : SendOracle :=
  { wcidx := 0, wnidx := 0, pcidx := 0, pnidx := 2 ^ 64 - 11 }

/-- A construction oracle on which every kernel step succeeds except the
second ring's `C.initialize`, which fails with -1. -/
def secondRingFails : InitOracle :=
  { parseErr := false, fileErr := false, ret1 := 0, ret2 := -1, submitErr := fun _ => 0 }

/-- A 16-byte IPv6 address (2001:db8::2) as the `IP` slice of a
`*net.UDPAddr`. -/
def sampleV6IP : List Nat :=
  [32, 1, 13, 184, 0, 0, 0, 0, 0, 0, 0, 0, 0, 0, 0, 2]

/-- A freshly constructed file connection state with small slot buffers:
the single read slot in flight, all eight write slots free. -/
def sampleFile : GoFile :=
  { writeRing := some { inflight := 0, submitLog := [] }
    readRing := some { inflight := Multiset.range 1, submitLog := List.range 1 }
    closeDone := false
    fileOpen := true
    fd := 4
    readReqs := List.replicate 1 smallReq
    writeReqs := List.replicate 8 smallReq
    writeReqC := List.range 8
    reqsFreed := false }

/-! Helper lemmas. -/

theorem goCopy_of_src_take {rb buf : List Nat} {n : Nat} (hn : n ≤ rb.length) :
    goCopy buf (rb.take n) =
      rb.take (min buf.length n) ++ buf.drop (min buf.length n) := by
  unfold goCopy
  rw [List.length_take, Nat.min_eq_left hn, List.take_take,
    Nat.min_eq_left (Nat.min_le_right buf.length n)]

theorem goCopy_full {rb p : List Nat} (hp : p.length ≤ rb.length) :
    goCopy (rb.take p.length) p ++ rb.drop p.length = p ++ rb.drop p.length := by
  unfold goCopy
  rw [List.length_take, Nat.min_eq_left hp, Nat.min_self, List.take_length,
    List.drop_eq_nil_of_le (by rw [List.length_take]; exact Nat.min_le_left _ _),
    List.append_nil]

theorem udpClose_closeDone (u : UDPConn) : ((UDPConn.Close u).2).closeDone = true := by
  unfold UDPConn.Close
  by_cases h : u.closeDone <;> simp [h, udpTeardown]

theorem fileClose_closeDone (f : GoFile) : ((GoFile.Close f).2).closeDone = true := by
  unfold GoFile.Close
  by_cases h : f.closeDone <;> simp [h, fileTeardown]

theorem udpClose_of_done {u : UDPConn} (h : u.closeDone = true) :
    UDPConn.Close u = (none, u) := by
  unfold UDPConn.Close
  simp [h]

theorem fileClose_of_done {f : GoFile} (h : f.closeDone = true) :
    GoFile.Close f = (none, f) := by
  unfold GoFile.Close
  simp [h]

theorem unpackNIdx_pos {v : Nat} (h : v < 2 ^ 63) :
    unpackNIdx v = .ok (v / 2 ^ 32) (v % 2 ^ 32) := by
  have hv : v % 2 ^ 64 = v := Nat.mod_eq_of_lt (by omega)
  have hsn : toSigned64 v = (v : Int) := by
    unfold toSigned64
    rw [if_pos (by omega)]
  have hdiv : v / 2 ^ 32 < 2 ^ 32 := by
    apply Nat.div_lt_of_lt_mul
    calc v < 2 ^ 63 := h
    _ ≤ 2 ^ 32 * 2 ^ 32 := by norm_num
  unfold unpackNIdx
  simp only [hv, hsn]
  rw [if_neg (not_lt.mpr (Int.natCast_nonneg v)), Nat.mod_eq_of_lt hdiv]

theorem unpackNIdx_neg {v : Nat} (h1 : 2 ^ 63 ≤ v) (h2 : v < 2 ^ 64) :
    unpackNIdx v = .err ((v : Int) - 2 ^ 64) := by
  have hv : v % 2 ^ 64 = v := Nat.mod_eq_of_lt h2
  have hsn : toSigned64 v = (v : Int) - 2 ^ 64 := by
    unfold toSigned64
    rw [if_neg (by omega)]
  have hcode : (v : Int) - 2 ^ 64 < 0 := by
    have : (v : Int) < 2 ^ 64 := by exact_mod_cast h2
    omega
  unfold unpackNIdx
  simp only [hv, hsn]
  rw [if_pos hcode]

theorem list_get?_lt {α : Type} {l : List α} {i : Nat} {a : α}
    (h : l.get? i = some a) : i < l.length := by
  induction l generalizing i with
  | nil => simp [List.get?] at h
  | cons x xs ih =>
    cases i with
    | zero => simp
    | succ j =>
        simp only [List.get?] at h
        have := ih h
        simp only [List.length_cons]
        omega

theorem list_get?_set_self {α : Type} {l : List α} {i : Nat} (a : α)
    (h : i < l.length) : (l.set i a).get? i = some a := by
  induction l generalizing i with
  | nil => simp at h
  | cons x xs ih =>
    cases i with
    | zero => rfl
    | succ j =>
        simp only [List.length_cons] at h
        exact ih (by omega)

theorem sendSlotAcquire_peek_irrel (c : List Nat) (ring : GoUring)
    (o : SendOracle) (a b : Nat) :
    sendSlotAcquire c ring { o with pcidx := a, pnidx := b } =
      sendSlotAcquire c ring o := by
  cases c <;> rfl


/-! Claim theorems. -/

/-- C3: `unpackNIdx` returns an error exactly when the 64-bit completion
value is negative as a signed `int64` (and the error carries that negated
OS error code); otherwise it returns the high 32 bits as the byte count and
the low 32 bits as the slot index, with no error. -/
theorem claim_C3_unpackNIdx (v : Nat) (h64 : v < 2 ^ 64) :
    ((∃ c, unpackNIdx v = .err c) ↔ 2 ^ 63 ≤ v) ∧
    (2 ^ 63 ≤ v → unpackNIdx v = .err ((v : Int) - 2 ^ 64)) ∧
    (v < 2 ^ 63 → unpackNIdx v = .ok (v / 2 ^ 32) (v % 2 ^ 32)) := by
  have hv : v % 2 ^ 64 = v := Nat.mod_eq_of_lt h64
  by_cases hneg : 2 ^ 63 ≤ v
  · have hlt : ¬((v : Int) < 2 ^ 63) := by
      push_neg
      exact_mod_cast hneg
    have hsn : toSigned64 v = (v : Int) - 2 ^ 64 := by
      unfold toSigned64
      rw [if_neg (by omega)]
    have hcode : toSigned64 v < 0 := by
      rw [hsn]
      have : (v : Int) < 2 ^ 64 := by exact_mod_cast h64
      omega
    refine ⟨⟨fun _ => hneg, fun _ => ⟨(v : Int) - 2 ^ 64, ?_⟩⟩, fun _ => ?_, fun h => absurd h (by omega)⟩ <;>
      · unfold unpackNIdx
        simp only [hv, hsn]
        rw [if_pos (hsn ▸ hcode)]
  · push_neg at hneg
    have hsn : toSigned64 v = (v : Int) := by
      unfold toSigned64
      rw [if_pos (by omega)]
    have hcode : ¬toSigned64 v < 0 := by
      rw [hsn]
      omega
    have heval : unpackNIdx v = .ok (v / 2 ^ 32) (v % 2 ^ 32) := by
      unfold unpackNIdx
      simp only [hv, if_neg hcode]
      have hdiv : v / 2 ^ 32 < 2 ^ 32 := by
        apply Nat.div_lt_of_lt_mul
        calc v < 2 ^ 63 := hneg
        _ ≤ 2 ^ 32 * 2 ^ 32 := by norm_num
      rw [Nat.mod_eq_of_lt hdiv]
    refine ⟨⟨fun ⟨c, hc⟩ => ?_, fun h => absurd h (by omega)⟩, fun h => absurd h (by omega), fun _ => heval⟩
    rw [heval] at hc
    exact absurd hc (by simp)

/-- C3 witness: concrete evaluations on both sides of the sign split, by
the theorem applied at `(7 << 32) + 3` and at `2 ^ 63 + 11`. -/
theorem claim_C3_witness :
    (unpackNIdx (7 * 2 ^ 32 + 3) = .ok 7 3) ∧
    (unpackNIdx (2 ^ 63 + 11) = .err ((2 ^ 63 + 11 : Int) - 2 ^ 64)) := by
  constructor
  · have h := (claim_C3_unpackNIdx (7 * 2 ^ 32 + 3) (by norm_num)).2.2 (by norm_num)
    rw [h]
    norm_num
  · have h := (claim_C3_unpackNIdx (2 ^ 63 + 11) (by norm_num)).2.1 (by norm_num)
    exact_mod_cast h

/-- C9: all three deadline setters panic with "not implemented"; none of
them ever returns (in particular none returns a nil error as a silent
no-op). -/
theorem claim_C9_deadlines_panic (c : UDPConn) (t : GoTime) :
    c.SetDeadline t = .panicked "not implemented" ∧
    c.SetReadDeadline t = .panicked "not implemented" ∧
    c.SetWriteDeadline t = .panicked "not implemented" ∧
    ∀ e, c.SetDeadline t ≠ .returned e ∧
      c.SetReadDeadline t ≠ .returned e ∧
      c.SetWriteDeadline t ≠ .returned e := by
  refine ⟨rfl, rfl, rfl, fun e => ⟨?_, ?_, ?_⟩⟩ <;>
    simp [UDPConn.SetDeadline, UDPConn.SetReadDeadline, UDPConn.SetWriteDeadline]

/-- C5: `Close` is idempotent on both connection types.  The first call on
a not-yet-closed connection performs the teardown body; the second and
every later call return the same (nil) result and leave the state
unchanged, so the teardown body runs exactly once. -/
theorem claim_C5_close_idempotent (u : UDPConn) (f : GoFile) (k : Nat) :
    (u.closeDone = false → (UDPConn.Close u).2 = udpTeardown u) ∧
    UDPConn.Close (UDPConn.Close u).2 = ((UDPConn.Close u).1, (UDPConn.Close u).2) ∧
    (fun s => (UDPConn.Close s).2)^[k] (UDPConn.Close u).2 = (UDPConn.Close u).2 ∧
    (f.closeDone = false → (GoFile.Close f).2 = fileTeardown f) ∧
    GoFile.Close (GoFile.Close f).2 = ((GoFile.Close f).1, (GoFile.Close f).2) ∧
    (fun s => (GoFile.Close s).2)^[k] (GoFile.Close f).2 = (GoFile.Close f).2 := by
  have hu1 : UDPConn.Close (UDPConn.Close u).2 = (none, (UDPConn.Close u).2) :=
    udpClose_of_done (udpClose_closeDone u)
  have hf1 : GoFile.Close (GoFile.Close f).2 = (none, (GoFile.Close f).2) :=
    fileClose_of_done (fileClose_closeDone f)
  have hures : (UDPConn.Close u).1 = none := by
    unfold UDPConn.Close
    by_cases h : u.closeDone <;> simp [h]
  have hfres : (GoFile.Close f).1 = none := by
    unfold GoFile.Close
    by_cases h : f.closeDone <;> simp [h]
  refine ⟨fun h => ?_, by rw [hu1, hures], ?_, fun h => ?_, by rw [hf1, hfres], ?_⟩
  · unfold UDPConn.Close
    simp [h]
  · induction k with
    | zero => rfl
    | succ m ih =>
        rw [Function.iterate_succ_apply', ih, hu1]
  · unfold GoFile.Close
    simp [h]
  · induction k with
    | zero => rfl
    | succ m ih =>
        rw [Function.iterate_succ_apply', ih, hf1]


/-- C6 (code bug): on the input where the first ring initializes and the
second ring's `C.initialize` fails, `NewUDPConn` exits the recv ring before
returning the error (live-ring count 0), but `NewFile` returns the error
with the write ring still initialized and never exited (live-ring count 1),
contradicting the spec's required rollback — the code itself marks the spot
`TODO: handle unwinding partial initialization`. -/
theorem claim_C6_ring_release_eval :
    (NewUDPConn true true 3 secondRingFails).1 = .error "uring initialization failed" ∧
    (NewUDPConn true true 3 secondRingFails).2 = 0 ∧
    (NewFile 3 secondRingFails).1 = .error "uring initialization failed" ∧
    (NewFile 3 secondRingFails).2 = 1 := by
  refine ⟨rfl, rfl, rfl, rfl⟩


/-- C4 counterexample: on an IPv4-family connection, `WriteTo` does not
fail for an IPv6 destination carried in a `*net.UDPAddr`: the claim's
example of a family mismatch is accepted, the first four bytes of the
16-byte IP are silently encoded as an IPv4 address, and the send is
submitted (`(len p, nil)` is returned, and the send ring's submission log
grows). -/
theorem claim_C4_counterexample :
    sampleConn4.is4 = true ∧
    sampleV6IP.length = 16 ∧
    (sampleConn4.WriteTo [1, 2, 3] (.udp sampleV6IP 7) quietOracle).1 = .ok 3 ∧
    ((sampleConn4.WriteTo [1, 2, 3] (.udp sampleV6IP 7) quietOracle).2).sendRing =
      some { inflight := {0}, submitLog := [0] } := by
  refine ⟨rfl, rfl, rfl, rfl⟩

/-- C4 (amended): `WriteTo` on an IPv4-family connection fails without
submitting a send when the connection is closed (`fd == 0`) or when the
destination is not a `*net.UDPAddr`; a `*net.UDPAddr` whose family does not
match the connection is not rejected (see the counterexample: an IPv6
destination on an IPv4 connection is silently mis-encoded). -/
theorem claim_C4_writeTo_failure_cases (u : UDPConn) (p : List Nat)
    (a : NetAddr) (o : SendOracle) (t : String) :
    (u.fd = 0 → u.WriteTo p a o = (.err "invalid uring.UDPConn", u)) ∧
    (u.fd ≠ 0 →
      u.WriteTo p (.other t) o =
        (.err ("cannot WriteTo net.Addr of type " ++ t), u)) := by
  constructor
  · intro h
    unfold UDPConn.WriteTo
    rw [if_pos h]
  · intro h
    unfold UDPConn.WriteTo
    rw [if_neg h]

/-- C4 witness: both failure branches at concrete inputs, by the amended
theorem applied to a closed connection and to a non-UDP address. -/
theorem claim_C4_witness :
    ({ sampleConn4 with fd := 0 }.WriteTo [1] (.udp [127, 0, 0, 1] 9) quietOracle =
      (.err "invalid uring.UDPConn", { sampleConn4 with fd := 0 })) ∧
    (sampleConn4.WriteTo [1] (.other "*net.TCPAddr") quietOracle =
      (.err "cannot WriteTo net.Addr of type *net.TCPAddr", sampleConn4)) := by
  constructor
  · exact (claim_C4_writeTo_failure_cases { sampleConn4 with fd := 0 } [1]
      (.udp [127, 0, 0, 1] 9) quietOracle "x").1 rfl
  · exact (claim_C4_writeTo_failure_cases sampleConn4 [1]
      (.other "*net.TCPAddr") quietOracle "*net.TCPAddr").2 (by decide)

theorem writeTo_acquired (u : UDPConn) (p ip : List Nat) (port : Int)
    (o : SendOracle) (ring ring1 : GoUring) (idx : Nat) (rest : List Nat)
    (r r' : Goreq)
    (hfd : u.fd ≠ 0)
    (hring : u.sendRing = some ring)
    (hacq : sendSlotAcquire u.sendReqC ring o = (.ok (idx, rest), ring1))
    (hslot : u.sendReqs.get? idx = some r)
    (henc : encodeDest u.is4
        { r with buf := goCopy (r.buf.take p.length) p ++ r.buf.drop p.length }
        ip port = some r') :
    u.WriteTo p (.udp ip port) o = finishSend u p idx rest r' ring1 o := by
  unfold UDPConn.WriteTo
  rw [if_neg hfd]
  simp only [hring, hacq, hslot, henc]

theorem writeTo_encode_none (u : UDPConn) (p ip : List Nat) (port : Int)
    (o : SendOracle) (ring ring1 : GoUring) (idx : Nat) (rest : List Nat)
    (r : Goreq)
    (hfd : u.fd ≠ 0)
    (hring : u.sendRing = some ring)
    (hacq : sendSlotAcquire u.sendReqC ring o = (.ok (idx, rest), ring1))
    (hslot : u.sendReqs.get? idx = some r)
    (henc : encodeDest u.is4
        { r with buf := goCopy (r.buf.take p.length) p ++ r.buf.drop p.length }
        ip port = none) :
    (u.WriteTo p (.udp ip port) o).1 = .panicked "runtime error: index out of range" := by
  unfold UDPConn.WriteTo
  rw [if_neg hfd]
  simp only [hring, hacq, hslot, henc]

theorem finishSend_fst (u : UDPConn) (p : List Nat) (idx : Nat)
    (rest : List Nat) (r' : Goreq) (ring1 : GoUring) (o : SendOracle) :
    (finishSend u p idx rest r' ring1 o).1 = .ok p.length := by
  unfold finishSend
  split
  · rfl
  · split <;> rfl

theorem finishSend_sendRing (u : UDPConn) (p : List Nat) (idx : Nat)
    (rest : List Nat) (r' : Goreq) (ring1 : GoUring) (o : SendOracle) :
    ∃ r2, ((finishSend u p idx rest r' ring1 o).2).sendRing = some r2 ∧
      r2.submitLog = ring1.submitLog ++ [idx] := by
  unfold finishSend
  split
  · exact ⟨_, rfl, rfl⟩
  · split <;> exact ⟨_, rfl, rfl⟩

theorem finishSend_sendReqs (u : UDPConn) (p : List Nat) (idx : Nat)
    (rest : List Nat) (r' : Goreq) (ring1 : GoUring) (o : SendOracle) :
    ((finishSend u p idx rest r' ring1 o).2).sendReqs = u.sendReqs.set idx r' := by
  unfold finishSend
  split
  · rfl
  · split <;> rfl

theorem encodeDest_some (is4 : Bool) (r : Goreq) (ip : List Nat) (port : Int)
    (h4 : is4 = true → 4 ≤ ip.length) (h6 : is4 = false → ip ≠ []) :
    ∃ r', encodeDest is4 r ip port = some r' ∧ r'.buf = r.buf := by
  cases is4 with
  | true =>
      unfold encodeDest
      rw [if_pos rfl, if_pos (h4 rfl)]
      exact ⟨_, rfl, rfl⟩
  | false =>
      unfold encodeDest
      rw [if_neg Bool.false_ne_true,
        if_neg (fun h => h6 rfl (List.length_eq_zero.mp h))]
      exact ⟨_, rfl, rfl⟩

/-- C2: a `WriteTo` that passes the closed-fd and type checks, acquires a
slot, and encodes the destination without faulting returns exactly
`(len p, nil)`.  The conclusion holds for every value the post-submission
`peek_completion` may return — in particular for error completions — so the
opportunistic peek never changes the result, and the call never waits on the
completion of the send it just submitted (the only wait is the one inside
slot acquisition, whose outcome is fixed by `hacq` before the send exists).
The final state shows `p` copied into the acquired slot and that slot
submitted on the send ring. -/
theorem claim_C2_writeTo_success (u : UDPConn) (p ip : List Nat) (port : Int)
    (o : SendOracle) (ring ring1 : GoUring) (idx : Nat) (rest : List Nat)
    (r : Goreq)
    (hfd : u.fd ≠ 0)
    (hring : u.sendRing = some ring)
    (hacq : sendSlotAcquire u.sendReqC ring o = (.ok (idx, rest), ring1))
    (hslot : u.sendReqs.get? idx = some r)
    (hp : p.length ≤ r.buf.length)
    (henc4 : u.is4 = true → 4 ≤ ip.length)
    (henc6 : u.is4 = false → ip ≠ []) :
    ∀ pcidx pnidx : Nat,
      (u.WriteTo p (.udp ip port) { o with pcidx := pcidx, pnidx := pnidx }).1 =
        .ok p.length ∧
      (∃ r2,
        ((u.WriteTo p (.udp ip port) { o with pcidx := pcidx, pnidx := pnidx }).2).sendRing =
          some r2 ∧ r2.submitLog = ring1.submitLog ++ [idx]) ∧
      (((u.WriteTo p (.udp ip port)
            { o with pcidx := pcidx, pnidx := pnidx }).2).sendReqs.get? idx).map
          Goreq.buf =
        some (p ++ r.buf.drop p.length) := by
  intro pcidx pnidx
  have hacq' :
      sendSlotAcquire u.sendReqC ring { o with pcidx := pcidx, pnidx := pnidx } =
        (.ok (idx, rest), ring1) := by
    rw [sendSlotAcquire_peek_irrel]
    exact hacq
  obtain ⟨r', henc, hbuf⟩ :=
    encodeDest_some u.is4
      { r with buf := goCopy (r.buf.take p.length) p ++ r.buf.drop p.length }
      ip port henc4 henc6
  have hred := writeTo_acquired u p ip port
    { o with pcidx := pcidx, pnidx := pnidx } ring ring1 idx rest r r'
    hfd hring hacq' hslot henc
  rw [hred]
  refine ⟨finishSend_fst _ _ _ _ _ _ _, finishSend_sendRing _ _ _ _ _ _ _, ?_⟩
  rw [finishSend_sendReqs, list_get?_set_self _ (list_get?_lt hslot)]
  have : r'.buf = p ++ r.buf.drop p.length := by
    rw [hbuf]
    exact goCopy_full hp
  simp [this]

/-- C2 witness: a concrete successful send of three bytes on an open
IPv4-family connection, with the peek reporting EAGAIN. -/
theorem claim_C2_witness :
    (sampleConn4.WriteTo [1, 2, 3] (.udp [127, 0, 0, 1] 9)
        { quietOracle with pcidx := 0, pnidx := 2 ^ 64 - 11 }).1 = .ok 3 ∧
    (((sampleConn4.WriteTo [1, 2, 3] (.udp [127, 0, 0, 1] 9)
        { quietOracle with pcidx := 0, pnidx := 2 ^ 64 - 11 }).2).sendReqs.get? 0).map
        Goreq.buf = some [1, 2, 3, 0, 0, 0, 0, 0] := by
  have h := claim_C2_writeTo_success sampleConn4 [1, 2, 3] [127, 0, 0, 1] 9
    quietOracle { inflight := 0, submitLog := [] } { inflight := 0, submitLog := [] }
    0 [1, 2, 3, 4, 5, 6, 7] smallReq
    (by decide) rfl rfl rfl (by decide) (fun _ => by decide) (fun _ => by decide)
    0 (2 ^ 64 - 11)
  exact ⟨h.1, h.2.2⟩

/-- C10: when the destination `*net.UDPAddr` carries an IP slice too short
for the connection's address family, `WriteTo` panics instead of returning
an error: on an IPv4-family connection an IP of fewer than 4 bytes faults
inside `binary.BigEndian.Uint32`, and on an IPv6-family connection an empty
IP faults at `&udpAddr.IP[0]`. -/
theorem claim_C10_writeTo_short_ip_panics (u : UDPConn) (p ip : List Nat)
    (port : Int) (o : SendOracle) (ring ring1 : GoUring) (idx : Nat)
    (rest : List Nat) (r : Goreq)
    (hfd : u.fd ≠ 0)
    (hring : u.sendRing = some ring)
    (hacq : sendSlotAcquire u.sendReqC ring o = (.ok (idx, rest), ring1))
    (hslot : u.sendReqs.get? idx = some r) :
    (u.is4 = true → ip.length < 4 →
      (u.WriteTo p (.udp ip port) o).1 = .panicked "runtime error: index out of range") ∧
    (u.is4 = false → ip = [] →
      (u.WriteTo p (.udp ip port) o).1 = .panicked "runtime error: index out of range") := by
  constructor
  · intro h4 hip
    refine writeTo_encode_none u p ip port o ring ring1 idx rest r hfd hring hacq hslot ?_
    unfold encodeDest
    rw [h4, if_pos rfl, if_neg (by omega)]
  · intro h6 hip
    refine writeTo_encode_none u p ip port o ring ring1 idx rest r hfd hring hacq hslot ?_
    unfold encodeDest
    rw [h6, if_neg Bool.false_ne_true, if_pos (by simp [hip])]

/-- C10 witness: concrete panics on both families — a 2-byte IP on the
IPv4-family connection and an empty IP on the IPv6-family connection. -/
theorem claim_C10_witness :
    (sampleConn4.WriteTo [1] (.udp [10, 0] 9) quietOracle).1 =
      .panicked "runtime error: index out of range" ∧
    (sampleConn6.WriteTo [1] (.udp [] 9) quietOracle).1 =
      .panicked "runtime error: index out of range" := by
  constructor
  · exact (claim_C10_writeTo_short_ip_panics sampleConn4 [1] [10, 0] 9 quietOracle
      { inflight := 0, submitLog := [] } { inflight := 0, submitLog := [] }
      0 [1, 2, 3, 4, 5, 6, 7] smallReq
      (by decide) rfl rfl rfl).1 rfl (by decide)
  · exact (claim_C10_writeTo_short_ip_panics sampleConn6 [1] [] 9 quietOracle
      { inflight := 0, submitLog := [] } { inflight := 0, submitLog := [] }
      0 [1, 2, 3, 4, 5, 6, 7] smallReq
      (by decide) rfl rfl rfl).2 rfl rfl

/-- C1: a `ReadFromNetaddr` on an open connection whose dequeued completion
is successful (value below `2^63`) with byte count `n = nidx >> 32` and
in-range slot index `idx = nidx & 0xffffffff` copies exactly
`min (n, len buf)` bytes of slot `idx`'s buffer into `buf` (the rest of
`buf` is untouched), returns `n` itself — not the copied count — together
with the address decoded from the slot's scratch socket address by the
connection's family, and resubmits slot `idx` on the recv ring. -/
theorem claim_C1_read_copy_decode_resubmit (u : UDPConn) (buf : List Nat)
    (cidx nidx : Nat) (se : Int) (ring : GoUring) (r : Goreq)
    (hfd : u.fd ≠ 0)
    (hring : u.recvRing = some ring)
    (hok : nidx < 2 ^ 63)
    (hslot : u.recvReqs.get? (nidx % 2 ^ 32) = some r)
    (hn : nidx / 2 ^ 32 ≤ r.buf.length)
    (hse : 0 ≤ se) :
    u.ReadFromNetaddr buf cidx nidx se =
      (.ok (nidx / 2 ^ 32) (decodeSrcAddr u.is4 r)
          (r.buf.take (min buf.length (nidx / 2 ^ 32)) ++
            buf.drop (min buf.length (nidx / 2 ^ 32))),
       { u with recvRing := some (submitOp (completeOp ring cidx) (nidx % 2 ^ 32)) }) := by
  unfold UDPConn.ReadFromNetaddr
  rw [if_neg hfd]
  simp only [hring, unpackNIdx_pos hok, hslot]
  rw [if_neg (not_lt.mpr hse), goCopy_of_src_take hn]

/-- C1 witness: a concrete successful receive — completion value
`3 << 32 | 2` (three bytes in slot 2) against a 2-byte caller buffer:
2 bytes copied, 3 returned, slot 2 resubmitted. -/
theorem claim_C1_witness :
    sampleConn4.ReadFromNetaddr [9, 9] 2 (3 * 2 ^ 32 + 2) 0 =
      (.ok 3 { ip := .v4 [0, 0, 0, 0], port := 0 } [0, 0],
       { sampleConn4 with
         recvRing := some (submitOp (completeOp
           { inflight := Multiset.range 8, submitLog := List.range 8 } 2) 2) }) := by
  have h := claim_C1_read_copy_decode_resubmit sampleConn4 [9, 9] 2
    (3 * 2 ^ 32 + 2) 0 { inflight := Multiset.range 8, submitLog := List.range 8 }
    smallReq (by decide) rfl (by norm_num) (by norm_num [sampleConn4]) (by decide)
    (by decide)
  rw [h]
  norm_num
  decide

/-- C8: `ReadFromNetaddr` returns an error in exactly two situations — the
connection is closed (`fd == 0`), checked before any ring operation, or the
dequeued completion value is negative (at or above `2^63` as an unsigned
64-bit value); in the closed case the state is returned untouched.  (A
failed resubmission or an out-of-range slot index panics, which is not an
error return.) -/
theorem claim_C8_read_error_cases (u : UDPConn) (buf : List Nat)
    (cidx nidx : Nat) (se : Int) (h64 : nidx < 2 ^ 64)
    (hring : u.fd ≠ 0 → u.recvRing.isSome = true) :
    ((∃ m, (u.ReadFromNetaddr buf cidx nidx se).1 = .err m) ↔
      (u.fd = 0 ∨ 2 ^ 63 ≤ nidx)) ∧
    (u.fd = 0 → u.ReadFromNetaddr buf cidx nidx se = (.err "invalid uring.UDPConn", u)) := by
  by_cases hfd : u.fd = 0
  · have heq : u.ReadFromNetaddr buf cidx nidx se = (.err "invalid uring.UDPConn", u) := by
      unfold UDPConn.ReadFromNetaddr
      rw [if_pos hfd]
    exact ⟨⟨fun _ => Or.inl hfd, fun _ => ⟨"invalid uring.UDPConn", by rw [heq]⟩⟩,
      fun _ => heq⟩
  · obtain ⟨ring, hr⟩ := Option.isSome_iff_exists.mp (hring hfd)
    refine ⟨?_, fun h => absurd h hfd⟩
    unfold UDPConn.ReadFromNetaddr
    rw [if_neg hfd]
    simp only [hr]
    by_cases hneg : 2 ^ 63 ≤ nidx
    · simp only [unpackNIdx_neg hneg h64]
      exact ⟨fun _ => Or.inr hneg, fun _ => ⟨_, rfl⟩⟩
    · push_neg at hneg
      simp only [unpackNIdx_pos hneg]
      have hnoerr : ∀ m : String,
          (u.fd = 0 ∨ 2 ^ 63 ≤ nidx) → False := by
        rintro m (h | h)
        · exact hfd h
        · omega
      cases hg : u.recvReqs.get? (nidx % 2 ^ 32) with
      | none =>
          simp only [hg]
          constructor
          · rintro ⟨m, hm⟩
            simp at hm
          · rintro (h | h)
            · exact absurd h hfd
            · omega
      | some r =>
          simp only [hg]
          by_cases hse : se < 0
          · simp only [if_pos hse]
            constructor
            · rintro ⟨m, hm⟩
              simp at hm
            · rintro (h | h)
              · exact absurd h hfd
              · omega
          · simp only [if_neg hse]
            constructor
            · rintro ⟨m, hm⟩
              simp at hm
            · rintro (h | h)
              · exact absurd h hfd
              · omega

/-- C8 witness: the characterization applied to a concrete open connection
and the negative completion value `-4` (as unsigned, `2^64 - 4`). -/
theorem claim_C8_witness :
    ((∃ m, (sampleConn4.ReadFromNetaddr [9, 9] 0 (2 ^ 64 - 4) 0).1 = .err m) ↔
      (sampleConn4.fd = 0 ∨ 2 ^ 63 ≤ 2 ^ 64 - 4)) ∧
    (sampleConn4.fd = 0 →
      sampleConn4.ReadFromNetaddr [9, 9] 0 (2 ^ 64 - 4) 0 =
        (.err "invalid uring.UDPConn", sampleConn4)) :=
  claim_C8_read_error_cases sampleConn4 [9, 9] 0 (2 ^ 64 - 4) 0
    (by norm_num) (fun _ => rfl)

/-- C7 counterexample: the read-side in-flight depth is not invariant
across every return.  On an open connection with all 8 recv slots in
flight, a negative completion value (`-11`, EAGAIN) makes
`ReadFromNetaddr` return an error without resubmitting the slot whose
completion was consumed: the in-flight count drops from 8 to 7. -/
theorem claim_C7_counterexample :
    (sampleConn4.recvRing.map fun r => Multiset.card r.inflight) = some 8 ∧
    (sampleConn4.ReadFromNetaddr [9, 9] 0 (2 ^ 64 - 11) 0).1 =
      .err "ReadFromNetaddr: error -11" ∧
    (((sampleConn4.ReadFromNetaddr [9, 9] 0 (2 ^ 64 - 11) 0).2).recvRing.map
        fun r => Multiset.card r.inflight) = some 7 := by
  refine ⟨by decide, by decide, by decide⟩

/-- C7 (amended): the read-side in-flight depth is preserved by every
successful (nil-error) return: when `ReadFromNetaddr` (resp. `File.Read`)
returns a value, the slot whose completion was consumed has been
resubmitted, so the number of outstanding recv (resp. read) submissions is
unchanged — in particular it stays at the configured pool depth (8, resp.
1).  An error return caused by a negative completion does not resubmit (see
the counterexample). -/
theorem claim_C7_depth_after_success :
    (∀ (u : UDPConn) (buf : List Nat) (cidx nidx : Nat) (se : Int)
        (ring : GoUring) (n : Nat) (ipp : IPPort) (b2 : List Nat),
      u.recvRing = some ring → cidx ∈ ring.inflight →
      (u.ReadFromNetaddr buf cidx nidx se).1 = .ok n ipp b2 →
      ∃ r2, ((u.ReadFromNetaddr buf cidx nidx se).2).recvRing = some r2 ∧
        Multiset.card r2.inflight = Multiset.card ring.inflight) ∧
    (∀ (f : GoFile) (buf : List Nat) (cidx nidx : Nat) (se : Int)
        (ring : GoUring) (n : Nat) (b2 : List Nat),
      f.readRing = some ring → cidx ∈ ring.inflight →
      (f.Read buf cidx nidx se).1 = .ok n b2 →
      ∃ r2, ((f.Read buf cidx nidx se).2).readRing = some r2 ∧
        Multiset.card r2.inflight = Multiset.card ring.inflight) := by
  constructor
  · intro u buf cidx nidx se ring n ipp b2 hr hc hok
    have hpos : 0 < Multiset.card ring.inflight :=
      Multiset.card_pos_iff_exists_mem.mpr ⟨cidx, hc⟩
    have herase := Multiset.card_erase_of_mem hc
    unfold UDPConn.ReadFromNetaddr at hok ⊢
    by_cases hfd : u.fd = 0
    · rw [if_pos hfd] at hok
      exact absurd hok (by simp)
    · rw [if_neg hfd] at hok ⊢
      simp only [hr] at hok ⊢
      cases hu : unpackNIdx nidx with
      | err code =>
          simp only [hu] at hok
          exact absurd hok (by simp)
      | ok m idx =>
          simp only [hu] at hok ⊢
          cases hg : u.recvReqs.get? idx with
          | none =>
              simp only [hg] at hok
              exact absurd hok (by simp)
          | some r =>
              simp only [hg] at hok ⊢
              by_cases hse : se < 0
              · simp only [if_pos hse] at hok
                exact absurd hok (by simp)
              · simp only [if_neg hse] at hok ⊢
                refine ⟨_, rfl, ?_⟩
                simp only [submitOp, completeOp, Multiset.card_cons, herase, Nat.pred_eq_sub_one]
                omega
  · intro f buf cidx nidx se ring n b2 hr hc hok
    have hpos : 0 < Multiset.card ring.inflight :=
      Multiset.card_pos_iff_exists_mem.mpr ⟨cidx, hc⟩
    have herase := Multiset.card_erase_of_mem hc
    unfold GoFile.Read at hok ⊢
    by_cases hfd : f.fd = 0
    · rw [if_pos hfd] at hok
      exact absurd hok (by simp)
    · rw [if_neg hfd] at hok ⊢
      simp only [hr] at hok ⊢
      cases hu : unpackNIdx nidx with
      | err code =>
          simp only [hu] at hok
          exact absurd hok (by simp)
      | ok m idx =>
          simp only [hu] at hok ⊢
          by_cases hm4 : m < 4
          · simp only [if_pos hm4] at hok
            exact absurd hok (by simp)
          · simp only [if_neg hm4] at hok ⊢
            cases hg : f.readReqs.get? idx with
            | none =>
                simp only [hg] at hok
                exact absurd hok (by simp)
            | some r =>
                simp only [hg] at hok ⊢
                by_cases hse : se < 0
                · simp only [if_pos hse] at hok
                  exact absurd hok (by simp)
                · simp only [if_neg hse] at hok ⊢
                  refine ⟨_, rfl, ?_⟩
                  simp only [submitOp, completeOp, Multiset.card_cons, herase, Nat.pred_eq_sub_one]
                  omega

/-- C7 witness: both halves applied to concrete successful reads — a UDP
receive of 3 bytes into slot 2 (depth stays at the depth of the 8-element
in-flight pool) and a file read of 4 bytes into slot 0 (depth stays at that
of the 1-element pool). -/
theorem claim_C7_witness :
    (∃ r2, ((sampleConn4.ReadFromNetaddr [9, 9] 2 (3 * 2 ^ 32 + 2) 0).2).recvRing =
        some r2 ∧
      Multiset.card r2.inflight = Multiset.card (Multiset.range 8)) ∧
    (∃ r2, ((sampleFile.Read [9, 9, 9, 9, 9] 0 (4 * 2 ^ 32) 0).2).readRing =
        some r2 ∧
      Multiset.card r2.inflight = Multiset.card (Multiset.range 1)) := by
  constructor
  · exact claim_C7_depth_after_success.1 sampleConn4 [9, 9] 2 (3 * 2 ^ 32 + 2) 0
      { inflight := Multiset.range 8, submitLog := List.range 8 } 3
      { ip := .v4 [0, 0, 0, 0], port := 0 } [0, 0] rfl (by decide) (by decide)
  · exact claim_C7_depth_after_success.2 sampleFile [9, 9, 9, 9, 9] 0 (4 * 2 ^ 32) 0
      { inflight := Multiset.range 1, submitLog := List.range 1 } 4
      [0, 0, 0, 0, 9] rfl (by decide) (by decide)

/-- C5 witness: the idempotence facts at a concrete connection and file,
with three further close calls after the second. -/
theorem claim_C5_witness :
    (UDPConn.Close sampleConn4).2 = udpTeardown sampleConn4 ∧
    UDPConn.Close (UDPConn.Close sampleConn4).2 =
      ((UDPConn.Close sampleConn4).1, (UDPConn.Close sampleConn4).2) ∧
    (fun s => (UDPConn.Close s).2)^[3] (UDPConn.Close sampleConn4).2 =
      (UDPConn.Close sampleConn4).2 ∧
    (GoFile.Close sampleFile).2 = fileTeardown sampleFile ∧
    GoFile.Close (GoFile.Close sampleFile).2 =
      ((GoFile.Close sampleFile).1, (GoFile.Close sampleFile).2) ∧
    (fun s => (GoFile.Close s).2)^[3] (GoFile.Close sampleFile).2 =
      (GoFile.Close sampleFile).2 := by
  have h := claim_C5_close_idempotent sampleConn4 sampleFile 3
  exact ⟨h.1 rfl, h.2.1, h.2.2.1, h.2.2.2.1 rfl, h.2.2.2.2.1, h.2.2.2.2.2⟩

/-- C9 witness: the deadline setters evaluated on a concrete connection and
time, and the never-returns fact instantiated at the nil error. -/
theorem claim_C9_witness :
    sampleConn4.SetDeadline { nanos := 0 } = .panicked "not implemented" ∧
    sampleConn4.SetReadDeadline { nanos := 0 } = .panicked "not implemented" ∧
    sampleConn4.SetWriteDeadline { nanos := 0 } = .panicked "not implemented" ∧
    sampleConn4.SetDeadline { nanos := 0 } ≠ .returned none ∧
    sampleConn4.SetReadDeadline { nanos := 0 } ≠ .returned none ∧
    sampleConn4.SetWriteDeadline { nanos := 0 } ≠ .returned none := by
  have h := claim_C9_deadlines_panic sampleConn4 { nanos := 0 }
  exact ⟨h.1, h.2.1, h.2.2.1, (h.2.2.2 none).1, (h.2.2.2 none).2.1, (h.2.2.2 none).2.2⟩
